import Mathlib

/-!
Verification of the Discord → Google Drive upload bot against its design
specification.  The JavaScript sources are shallowly embedded below:

* pure helpers (`formatFileSize`, `parseFileSize`, `getFieldValue`,
  `canTriggerUpload`, …) become Lean functions;
* the embed codec (`sendFolderSelectionMessage` / `extractRequestFromDMEmbed`)
  is modelled by an `DMEmbed` value and a decoder that implements the source
  regular expressions by explicit backtracking matchers;
* the Google Drive folder cache (`buildFolderCache`, `buildFolderTree`,
  `getAllFolders`, `getFoldersForSelectMenu`, `getFolderIdByPath`,
  `getCachedFolderIdByPath`) is embedded with the remote Drive API as an
  explicit finite backend state;
* the Discord interaction handlers (approve/deny, confirm, reaction) become
  functions from their inputs to a record of the user-visible effects.

JavaScript numbers are modelled as exact rationals (`Option ℚ`, with `none`
playing the role of `NaN`); machine floating point is idealised.  JavaScript
`Map`/object insertion-order semantics are modelled with association lists.
-/

/-! ### Generic list and string helpers (JS string primitives) -/

/-- Strip a literal character sequence from the front of a list:
`some rest` iff the literal is a prefix. -/
def dropLiteral : List Char → List Char → Option (List Char)
  | [], cs => some cs
  | _ :: _, [] => none
  | l :: ls, c :: cs => if c = l then dropLiteral ls cs else none

/-- JS `String.prototype.includes` on character lists. -/
def occursInL (pat : List Char) : List Char → Bool
  | [] => decide (pat = [])
  | c :: cs => (dropLiteral pat (c :: cs)).isSome || occursInL pat cs

/-- JS `String.prototype.includes`. -/
def occursIn (pat s : String) : Bool := occursInL pat.data s.data

/-- JS `String.prototype.replace` with a string pattern: replace the first
occurrence only (list version, non-empty pattern path). -/
def replaceFirstAux (pat repl : List Char) : List Char → List Char
  | [] => []
  | c :: cs =>
    match dropLiteral pat (c :: cs) with
    | some rest => repl ++ rest
    | none => c :: replaceFirstAux pat repl cs

/-- JS `s.replace(pat, repl)` for a string pattern (first occurrence;
an empty pattern matches at position 0, as in JS). -/
def replaceFirst (s pat repl : String) : String :=
  if pat.data = [] then repl ++ s
  else (replaceFirstAux pat.data repl.data s.data).asString

/-- First association-list entry with the given key (JS `Map.get` /
object property lookup on string keys). -/
def lookupA {α : Type} (m : List (String × α)) (k : String) : Option α :=
  (m.find? (fun e => e.1 = k)).map (·.2)

/-- JS `map.set(k, v)` / `obj[k] = v`: overwrite in place (keeping the
original position) or append. -/
def setKey {α : Type} (m : List (String × α)) (k : String) (v : α) :
    List (String × α) :=
  match m with
  | [] => [(k, v)]
  | (k', v') :: rest =>
    if k' = k then (k, v) :: rest else (k', v') :: setKey rest k v

/-- JS falsy coalescing of a possibly-undefined string with the empty
string default. -/
def jsOrEmptyS : Option String → String
  | none => ""
  | some s => s

/-- JS truthiness of a possibly-undefined string. -/
def truthyO : Option String → Bool
  | none => false
  | some s => s ≠ ""

/-- JS `a || d` for possibly-undefined strings (empty string is falsy). -/
def falsyD : Option String → String → String
  | none, d => d
  | some s, d => if s = "" then d else s

/-! ### `split('/')` and `join('/')` -/

/-- Accumulator worker for JS `String.prototype.split('/')`. -/
def splitSlashAux (acc : List Char) : List Char → List (List Char)
  | [] => [acc.reverse]
  | c :: cs =>
    if c = '/' then acc.reverse :: splitSlashAux [] cs
    else splitSlashAux (c :: acc) cs

/-- JS `s.split('/')` (note `''.split('/') = ['']`). -/
def splitSlash (s : String) : List String :=
  (splitSlashAux [] s.data).map List.asString

/-- JS `parts.join('/')` on character lists. -/
def joinSlashL : List (List Char) → List Char
  | [] => []
  | [x] => x
  | x :: y :: rest => x ++ '/' :: joinSlashL (y :: rest)

/-- JS `parts.join('/')`. -/
def joinSlash (parts : List String) : String :=
  (joinSlashL (parts.map String.data)).asString

/-! ### Rendering JS numbers (digits) -/

/-- One decimal digit as a character. -/
def digitToChar : Nat → Char
  | 0 => '0' | 1 => '1' | 2 => '2' | 3 => '3' | 4 => '4'
  | 5 => '5' | 6 => '6' | 7 => '7' | 8 => '8' | _ => '9'

/-- Fuel-driven decimal rendering of a natural number (the fuel argument is
only a structural-termination device; `natToStr` supplies enough). -/
def natToStrAux : Nat → Nat → List Char → List Char
  | 0, _, acc => acc
  | fuel + 1, n, acc =>
    if n < 10 then digitToChar n :: acc
    else natToStrAux fuel (n / 10) (digitToChar (n % 10) :: acc)

/-- Decimal rendering of a natural number (JS `String(n)` for integers). -/
def natToStr (n : Nat) : String := (natToStrAux (n + 1) n []).asString

/-! ### helpers.js : file sizes -/

/-- The JS `Math.floor(Math.log(n) / Math.log(1024))`, idealised to the exact
base-1024 floor logarithm (fuel-driven for kernel reducibility). -/
def floorLog1024 : Nat → Nat → Nat
  | 0, _ => 0
  | fuel + 1, n => if n < 1024 then 0 else floorLog1024 fuel (n / 1024) + 1

/-- JS `parseFloat(x.toFixed(2))` printed back to a string, where `x` is the
exact rational `num / den`: round to hundredths (half away from zero) and
print without trailing zeros. -/
def renderFixed2 (num den : Nat) : String :=
  let n100 := (200 * num + den) / (2 * den)
  let ip := n100 / 100
  let fr := n100 % 100
  if fr = 0 then natToStr ip
  else if fr % 10 = 0 then natToStr ip ++ "." ++ natToStr (fr / 10)
  else if fr < 10 then natToStr ip ++ ".0" ++ natToStr fr
  else natToStr ip ++ "." ++ natToStr fr

/-- helpers.js `formatFileSize(bytes)`: human-readable size with units
`Bytes`/`KB`/`MB`/`GB` at factor 1024 (for four-or-more unit steps the JS
`sizes[i]` lookup yields `undefined`, rendered as the string `"undefined"`). -/
def formatFileSize (bytes : Nat) : String :=
  if bytes = 0 then "0 Bytes"
  else
    let i := floorLog1024 bytes bytes
    renderFixed2 bytes (1024 ^ i) ++ " " ++
      (["Bytes", "KB", "MB", "GB"].getD i "undefined")

/-- Is the character a decimal digit or a dot (the class `[\d.]`)? -/
def digitOrDot (c : Char) : Bool := c.isDigit || c = '.'

/-- JS whitespace (`\s`), restricted to the common ASCII whitespace. -/
def jsWhitespace (c : Char) : Bool :=
  c = ' ' || c = '\t' || c = '\n' || c = '\r' || c = '\x0b' || c = '\x0c'

/-- Digits of a character list interpreted in base 10 (helper for
`jsParseFloat`). -/
def digitsVal : List Char → Nat
  | [] => 0
  | c :: cs => digitsVal cs + c.toNat % 48 * 10 ^ cs.length

/-- JS `parseFloat` on a non-empty run of digits and dots, as produced by the
`([\d.]+)` capture group; `none` models `NaN`. -/
def jsParseFloat (cs : List Char) : Option ℚ :=
  let ip := cs.takeWhile Char.isDigit
  let rest := cs.dropWhile Char.isDigit
  match rest with
  | '.' :: r2 =>
    let fp := r2.takeWhile Char.isDigit
    if ip = [] ∧ fp = [] then none
    else some ((digitsVal ip : ℚ) + (digitsVal fp : ℚ) / (10 ^ fp.length : ℚ))
  | _ => if ip = [] then none else some (digitsVal ip : ℚ)

/-- helpers.js `parseFileSize(str)`: invert the readable size via the regex
`^([\d.]+)\s*(Bytes|KB|MB|GB)$` (no match returns `0`; a matched but
unparseable number is JS `NaN`, modelled as `none`). -/
def parseFileSize (s : String) : Option ℚ :=
  let cs := s.data
  let g1 := cs.takeWhile digitOrDot
  let rest := (cs.dropWhile digitOrDot).dropWhile jsWhitespace
  if g1 = [] then some 0
  else
    let unit := rest.asString
    if unit = "Bytes" then jsParseFloat g1
    else if unit = "KB" then (jsParseFloat g1).map (· * 1024)
    else if unit = "MB" then (jsParseFloat g1).map (· * (1024 * 1024))
    else if unit = "GB" then (jsParseFloat g1).map (· * (1024 * 1024 * 1024))
    else some 0

/-! ### C10 : folder navigation path algebra -/

/-- The `getFoldersForSelectMenu` option values: the full slash-joined path
(`parentPath ? parentPath + '/' + folderName : folderName`). -/
def selectOptionValue (parentPath folderName : String) : String :=
  if parentPath = "" then folderName else parentPath ++ "/" ++ folderName

/-- The `dm_folder_back_` handler path update:
`split('/')`, `pop()`, `join('/')`. -/
def navigateBackPath (p : String) : String :=
  joinSlash (splitSlash p).dropLast

theorem splitSlashAux_append (p n : List Char) :
    ∀ acc, splitSlashAux acc (p ++ '/' :: n) =
      splitSlashAux acc p ++ splitSlashAux [] n := by
  induction p with
  | nil => intro acc; simp [splitSlashAux]
  | cons c cs ih =>
    intro acc
    by_cases hc : c = '/'
    · subst hc; simp [splitSlashAux, ih]
    · simp [splitSlashAux, hc, ih]

theorem splitSlashAux_noSlash (n : List Char) (hn : '/' ∉ n) :
    ∀ acc, splitSlashAux acc n = [acc.reverse ++ n] := by
  induction n with
  | nil => intro acc; simp [splitSlashAux]
  | cons c cs ih =>
    intro acc
    have hc : c ≠ '/' := fun h => hn (h ▸ List.mem_cons_self c cs)
    have hcs : '/' ∉ cs := fun h => hn (List.mem_cons_of_mem c h)
    simp [splitSlashAux, hc, ih hcs]

theorem splitSlashAux_ne_nil (l : List Char) :
    ∀ acc, splitSlashAux acc l ≠ [] := by
  induction l with
  | nil => intro acc; simp [splitSlashAux]
  | cons c cs ih =>
    intro acc
    simp only [splitSlashAux]
    split
    · simp
    · exact ih _

theorem joinSlashL_splitSlashAux (p : List Char) :
    ∀ acc, joinSlashL (splitSlashAux acc p) = acc.reverse ++ p := by
  induction p with
  | nil => intro acc; simp [splitSlashAux, joinSlashL]
  | cons c cs ih =>
    intro acc
    by_cases hc : c = '/'
    · subst hc
      simp only [splitSlashAux, if_pos rfl]
      cases hsp : splitSlashAux ([] : List Char) cs with
      | nil => exact absurd hsp (splitSlashAux_ne_nil cs [])
      | cons x xs =>
        simp only [joinSlashL]
        have := ih []
        rw [hsp] at this
        simp only [List.reverse_nil, List.nil_append] at this
        simp [← this, hsp, joinSlashL]
    · simp only [splitSlashAux, if_neg hc]
      rw [ih (c :: acc)]
      simp

theorem mapData_mapAsString (l : List (List Char)) :
    (l.map List.asString).map String.data = l := by
  rw [List.map_map]
  have h : (String.data ∘ List.asString) = id := by funext x; rfl
  rw [h, List.map_id]

/-- C10 (implicit claim): navigating into an offered folder (whose rendered
option value is the full slash-joined path) and then navigating back restores
the previous destination path exactly, for any folder name free of `/`. -/
theorem navigateInto_then_back (p name : String)
    (hname : '/' ∉ name.data) :
    navigateBackPath (selectOptionValue p name) = p := by
  by_cases hp : p = ""
  · subst hp
    have hsel : selectOptionValue "" name = name := by
      simp [selectOptionValue]
    rw [hsel]
    simp only [navigateBackPath, splitSlash, joinSlash]
    rw [splitSlashAux_noSlash name.data hname []]
    simp [joinSlashL]
    rfl
  · have hsel : selectOptionValue p name = p ++ "/" ++ name := by
      simp [selectOptionValue, hp]
    rw [hsel]
    simp only [navigateBackPath, splitSlash, joinSlash]
    have hdata : (p ++ "/" ++ name).data = p.data ++ '/' :: name.data := by
      rw [String.data_append, String.data_append]
      simp
    rw [hdata, splitSlashAux_append p.data name.data [],
      splitSlashAux_noSlash name.data hname []]
    simp only [List.reverse_nil, List.nil_append]
    rw [List.map_append]
    simp only [List.map_cons, List.map_nil]
    rw [List.dropLast_concat, mapData_mapAsString,
      joinSlashL_splitSlashAux p.data []]
    simp only [List.reverse_nil, List.nil_append]
    cases p; rfl

/-- Witness for `navigateInto_then_back` at a concrete path and folder name. -/
theorem navigateInto_then_back_witness :
    ('/' ∉ "characters".data) ∧
      navigateBackPath (selectOptionValue "projects/game-art" "characters") =
        "projects/game-art" :=
  ⟨by decide, navigateInto_then_back "projects/game-art" "characters" (by decide)⟩

/-! ### C8 : permission gate (`canTriggerUpload`) and the reaction handler -/

/-- Result of helpers.js `canTriggerUpload`. -/
structure PermCheck where
  canUpload : Bool
  reason : String
  deriving DecidableEq

/-- Configuration relevant to the reaction workflow (config.json values). -/
structure BotConfig where
  uploadEmoji : String
  uploadChannels : List String
  officerPermission : Option String
  deriving DecidableEq

/-- One upload-emoji reaction event, with the chat/guild facts the handler
consults.  `memberFetchOk` is whether `guild.members.fetch` succeeds;
`memberHasOfficerPerm` is whether the fetched member holds the configured
officer permission bit. -/
structure ReactionEvent where
  userIsBot : Bool
  emojiName : String
  emojiId : Option String
  channelId : String
  authorId : String
  userId : String
  guildPresent : Bool
  memberFetchOk : Bool
  memberHasOfficerPerm : Bool
  attachmentsCount : Nat
  imageAttachmentsCount : Nat
  deriving DecidableEq

/-- helpers.js `canTriggerUpload(user, message)`: original author, otherwise
officer permission via the guild member, otherwise disallowed (errors while
fetching the member are caught and fall through to disallowed). -/
def canTriggerUpload (cfg : BotConfig) (evt : ReactionEvent) : PermCheck :=
  if evt.userId = evt.authorId then ⟨true, "original_author"⟩
  else if ¬evt.guildPresent then ⟨false, "no_guild"⟩
  else if ¬evt.memberFetchOk then ⟨false, "no_permission"⟩
  else
    match cfg.officerPermission with
    | some p =>
      if p ≠ "" ∧ evt.memberHasOfficerPerm then ⟨true, "officer_permission"⟩
      else ⟨false, "no_permission"⟩
    | none => ⟨false, "no_permission"⟩

/-- The `MessageReactionAdd` handler: the list of direct messages sent to the
reacting user, and whether the upload workflow was started (a folder-selection
or attachment-selection DM). -/
def messageReactionAdd (cfg : BotConfig) (evt : ReactionEvent) :
    List String × Bool :=
  if evt.userIsBot then ([], false)
  else if evt.emojiName ≠ cfg.uploadEmoji ∧ evt.emojiId ≠ some cfg.uploadEmoji
    then ([], false)
  else if ¬(cfg.uploadChannels.contains evt.channelId) then
    (["❌ Upload requests are only allowed in designated art channels."], false)
  else if ¬(canTriggerUpload cfg evt).canUpload then ([], false)
  else if evt.attachmentsCount = 0 then
    (["❌ You can only upload messages that contain image attachments."], false)
  else if evt.imageAttachmentsCount = 0 then
    (["❌ No image attachments found in that message."], false)
  else (["(upload workflow message)"], true)

/-- C8: a non-author actor without the configured officer permission is
disallowed by `canTriggerUpload` and the reaction handler sends that actor no
message at all (silent ignore), while the missing-attachment and
disallowed-channel failures for a permitted actor do surface an error DM. -/
theorem permissionSilence (cfg : BotConfig) (evt : ReactionEvent)
    (hauthor : evt.userId ≠ evt.authorId)
    (hperm : ¬evt.guildPresent ∨ ¬evt.memberFetchOk ∨
      cfg.officerPermission = none ∨ cfg.officerPermission = some "" ∨
      ¬evt.memberHasOfficerPerm)
    (hbot : evt.userIsBot = false)
    (hemoji : evt.emojiName = cfg.uploadEmoji ∨ evt.emojiId = some cfg.uploadEmoji)
    (hchan : cfg.uploadChannels.contains evt.channelId = true) :
    (canTriggerUpload cfg evt).canUpload = false ∧
      messageReactionAdd cfg evt = ([], false) ∧
      (∀ evt' : ReactionEvent,
        evt' = { evt with userId := evt.authorId, attachmentsCount := 0 } →
        (messageReactionAdd cfg evt').1 ≠ []) := by
  have hcan : (canTriggerUpload cfg evt).canUpload = false := by
    unfold canTriggerUpload
    rw [if_neg hauthor]
    rcases hperm with h | h | h | h | h
    · simp [h]
    · by_cases hg : evt.guildPresent <;> simp [hg, h]
    · by_cases hg : evt.guildPresent
      · by_cases hf : evt.memberFetchOk <;> simp [hg, hf, h]
      · simp [hg]
    · by_cases hg : evt.guildPresent
      · by_cases hf : evt.memberFetchOk <;> simp [hg, hf, h]
      · simp [hg]
    · by_cases hg : evt.guildPresent
      · by_cases hf : evt.memberFetchOk
        · cases hop : cfg.officerPermission <;> simp [hg, hf, h, hop]
        · simp [hg, hf]
      · simp [hg]
  refine ⟨hcan, ?_, ?_⟩
  · unfold messageReactionAdd
    rw [if_neg (by simp [hbot])]
    have hem : ¬(evt.emojiName ≠ cfg.uploadEmoji ∧ evt.emojiId ≠ some cfg.uploadEmoji) := by
      rcases hemoji with h | h
      · intro hc; exact hc.1 h
      · intro hc; exact hc.2 h
    rw [if_neg hem, if_neg (by rw [hchan]; simp), if_pos (by simp [hcan])]
  · intro evt' hevt'
    subst hevt'
    unfold messageReactionAdd canTriggerUpload
    simp only [hbot]
    rw [if_neg (by simp)]
    have hem : ¬(evt.emojiName ≠ cfg.uploadEmoji ∧ evt.emojiId ≠ some cfg.uploadEmoji) := by
      rcases hemoji with h | h
      · intro hc; exact hc.1 h
      · intro hc; exact hc.2 h
    rw [if_neg hem, if_neg (by rw [hchan]; simp)]
    simp

/-- Witness for `permissionSilence`: a stranger reacting in an allowed channel
gets silently ignored. -/
theorem permissionSilence_witness :
    (canTriggerUpload ⟨"⬆", ["c1"], some "ManageMessages"⟩
        ⟨false, "⬆", none, "c1", "author9", "stranger7", true, true, false, 1, 1⟩).canUpload
        = false ∧
      messageReactionAdd ⟨"⬆", ["c1"], some "ManageMessages"⟩
        ⟨false, "⬆", none, "c1", "author9", "stranger7", true, true, false, 1, 1⟩
        = ([], false) :=
  let h := permissionSilence ⟨"⬆", ["c1"], some "ManageMessages"⟩
    ⟨false, "⬆", none, "c1", "author9", "stranger7", true, true, false, 1, 1⟩
    (by decide) (by right; right; right; right; decide) (by decide)
    (by left; decide) (by decide)
  ⟨h.1, h.2.1⟩

/-! ### C7 : confirm transition (index.js `dm_confirm_upload_` handler) -/

/-- User-visible outcome of the confirm handler: the (ephemeral) reply shown
to the requester, whether a review card was posted to the approval channel,
and whether the requester-facing state card was rewritten. -/
structure ConfirmResult where
  reply : Option String
  reviewCardPosted : Bool
  stateCardEdited : Bool
  deriving DecidableEq

/-- The `dm_confirm_upload_` button handler.  `approvalChannelId` is the
`APPROVAL_CHANNEL_ID` environment value, `channelInCache` whether
`client.channels.cache` holds a given id; `sendOk` / `editOk` tell whether
the review-card send and the state-card edit succeed.  `decoded` is the
result of `extractRequestFromDMEmbed` on the state card (here only its
success matters, so it is a `Bool`). -/
def dmConfirmUpload (approvalChannelId : Option String)
    (channelInCache : String → Bool) (sendOk editOk : Bool)
    (decoded : Bool) : ConfirmResult :=
  if ¬decoded then
    ⟨some "❌ Upload request expired or not found.", false, false⟩
  else if ¬truthyO approvalChannelId then
    ⟨some "❌ Approval channel not configured. Contact an administrator.",
      false, false⟩
  else if ¬channelInCache (approvalChannelId.getD "") then
    ⟨some "❌ Could not find approval channel. Contact an administrator.",
      false, false⟩
  else if ¬sendOk then
    ⟨some "❌ Error submitting request for approval. Contact an administrator.",
      false, false⟩
  else
    ⟨some "✅ Upload request submitted for approval! The message above has been updated.",
      true, editOk⟩

/-- C7: when no review destination is configured (or the configured channel
cannot be found), confirming is refused with an error reply to the requester
only, no review card is posted and the state card is left unchanged; once the
configuration is fixed the same request confirms successfully. -/
theorem confirmRequiresApprovalChannel (approvalChannelId : Option String)
    (channelInCache : String → Bool) (sendOk editOk : Bool)
    (hmissing : truthyO approvalChannelId = false ∨
      (truthyO approvalChannelId = true ∧
        channelInCache (approvalChannelId.getD "") = false)) :
    (∃ msg, dmConfirmUpload approvalChannelId channelInCache sendOk editOk true
        = ⟨some msg, false, false⟩) ∧
      (∀ goodId goodCache, truthyO goodId = true →
        goodCache (goodId.getD "") = true →
        (dmConfirmUpload goodId goodCache true editOk true).reviewCardPosted
          = true) := by
  constructor
  · rcases hmissing with h | ⟨h1, h2⟩
    · exact ⟨_, by unfold dmConfirmUpload; rw [if_neg (by simp), if_pos (by simp [h])]⟩
    · exact ⟨_, by
        unfold dmConfirmUpload
        rw [if_neg (by simp), if_neg (by simp [h1]), if_pos (by simp [h2])]⟩
  · intro goodId goodCache hg1 hg2
    unfold dmConfirmUpload
    rw [if_neg (by simp), if_neg (by simp [hg1]), if_neg (by simp [hg2]),
      if_neg (by simp)]

/-- Witness for `confirmRequiresApprovalChannel` with no configured channel. -/
theorem confirmRequiresApprovalChannel_witness :
    (∃ msg, dmConfirmUpload none (fun _ => true) true true true
        = ⟨some msg, false, false⟩) ∧
      (∀ goodId goodCache, truthyO goodId = true →
        goodCache (goodId.getD "") = true →
        (dmConfirmUpload goodId goodCache true true true).reviewCardPosted
          = true) :=
  confirmRequiresApprovalChannel none (fun _ => true) true true
    (Or.inl (by decide))

/-! ### C2 : review card approve / deny handlers (interactions.js) -/

/-- A review (approval-channel) card: its title and labelled fields. -/
structure ReviewEmbed where
  title : String
  fields : List (String × String)
  deriving DecidableEq

/-- Field lookup on a review embed (the handler-local `getFieldValue`). -/
def getReviewField (e : ReviewEmbed) (name : String) : Option String :=
  (e.fields.find? (fun f => f.1 = name)).map (·.2)

/-- The already-processed guard of the `approve_`/`deny_` handlers:
the title containing APPROVED, DENIED or FAILED. -/
def reviewAlreadyProcessed (e : ReviewEmbed) : Bool :=
  occursIn "APPROVED" e.title || occursIn "DENIED" e.title ||
    occursIn "FAILED" e.title

/-- The regex `/<@(\d+)>/`: leftmost `<@digits>` occurrence, returning the
digit group. -/
def matchMentionL : List Char → Option String
  | [] => none
  | '<' :: '@' :: rest =>
    let ds := rest.takeWhile Char.isDigit
    match (rest.dropWhile Char.isDigit), ds with
    | '>' :: _, _ :: _ => some ds.asString
    | _, _ => matchMentionL ('@' :: rest)
  | _ :: rest => matchMentionL rest

/-- JS `value.match(/<@(\d+)>/)?.[1]`. -/
def matchMention (s : String) : Option String := matchMentionL s.data

/-- The user-visible effects of one approve / deny invocation. -/
structure ApprovalOutcome where
  immediateReply : Option String
  deferredReply : Option String
  editedCard : Option ReviewEmbed
  transfers : Nat
  requesterNotifications : Nat
  dmDeleted : Bool
  deriving DecidableEq

/-- The review card after a successful approval:
`EmbedBuilder.from(embed).setTitle(✅ Upload Request APPROVED)` plus the
approver field. -/
def approvedCardOf (e : ReviewEmbed) (approverId : String) : ReviewEmbed :=
  ⟨"✅ Upload Request APPROVED",
    e.fields ++ [("👨‍💼 Approved by", "<@" ++ approverId ++ ">")]⟩

/-- The review card after a failed transfer. -/
def failedCardOf (e : ReviewEmbed) (errMsg : String) : ReviewEmbed :=
  ⟨"❌ Upload Request FAILED", e.fields ++ [("❌ Error", errMsg)]⟩

/-- The review card after a denial. -/
def deniedCardOf (e : ReviewEmbed) (denierId : String) : ReviewEmbed :=
  ⟨"❌ Upload Request DENIED",
    e.fields ++ [("👨‍💼 Denied by", "<@" ++ denierId ++ ">")]⟩

/-- The `approve_` button handler (interactions.js): guard on a missing
embed, the already-processed guard (including FAILED), field extraction with
truthiness checks, then `uploadFromUrl` (download + upload, `transferOk`),
the card rewrite, requester lookup (`fetchOk` for `client.users.fetch`) and
notification, and the best-effort DM cleanup. -/
def approveInteraction (embed : Option ReviewEmbed)
    (transferOk : Bool) (transferErr : String) (fetchOk : Bool)
    (approverId : String) : ApprovalOutcome :=
  match embed with
  | none =>
    ⟨some "❌ Could not find request information in message.", none, none, 0, 0, false⟩
  | some e =>
    if reviewAlreadyProcessed e then
      ⟨some "❌ This request has already been processed.", none, none, 0, 0, false⟩
    else
      let userId := (getReviewField e "👤 Requested by").bind matchMention
      let fileName := getReviewField e "📁 File Name"
      let attachmentUrl := getReviewField e "🔗 Original File"
      if ¬(truthyO userId && truthyO fileName && truthyO attachmentUrl) then
        ⟨some "❌ Missing required approval information.", none, none, 0, 0, false⟩
      else if transferOk then
        if fetchOk then
          ⟨none, some "✅ Upload approved and completed successfully!",
            some (approvedCardOf e approverId), 1, 1, true⟩
        else
          ⟨none, some ("❌ Error during upload: " ++ transferErr),
            some (failedCardOf e transferErr), 1, 0, false⟩
      else
        ⟨none, some ("❌ Error during upload: " ++ transferErr),
          some (failedCardOf e transferErr), 1, 0, false⟩

/-- The `deny_` button handler (interactions.js): missing-embed guard,
already-processed guard (including FAILED), field truthiness checks, card
rewrite, requester lookup and denial notification, DM cleanup; no transfer is
ever attempted. -/
def denyInteraction (embed : Option ReviewEmbed) (fetchOk : Bool)
    (fetchErr : String) (denierId : String) : ApprovalOutcome :=
  match embed with
  | none =>
    ⟨some "❌ Could not find request information in message.", none, none, 0, 0, false⟩
  | some e =>
    if reviewAlreadyProcessed e then
      ⟨some "❌ This request has already been processed.", none, none, 0, 0, false⟩
    else
      let userId := (getReviewField e "👤 Requested by").bind matchMention
      let fileName := getReviewField e "📁 File Name"
      if ¬(truthyO userId && truthyO fileName) then
        ⟨some "❌ Missing user information in approval request.", none, none, 0, 0, false⟩
      else if fetchOk then
        ⟨none, some "❌ Upload request denied.",
          some (deniedCardOf e denierId), 0, 1, true⟩
      else
        ⟨none, some ("❌ Error processing denial: " ++ fetchErr),
          some (deniedCardOf e denierId), 0, 0, false⟩

/-- The rejected-as-already-processed outcome: an error reply and no other
effect (no transfer, no notification, no card edit, no DM deletion). -/
def alreadyProcessedOutcome : ApprovalOutcome :=
  ⟨some "❌ This request has already been processed.", none, none, 0, 0, false⟩

/-- Fields needed by the approve handler are present and truthy. -/
def validReviewFields (e : ReviewEmbed) : Bool :=
  truthyO ((getReviewField e "👤 Requested by").bind matchMention) &&
    truthyO (getReviewField e "📁 File Name") &&
    truthyO (getReviewField e "🔗 Original File")

/-- C2: on a terminally rendered review card (title containing APPROVED,
DENIED or FAILED) both approve and deny are rejected with the
already-processed error and perform no transfer, no notification and no card
edit; and after a successful approve of a pending card, a subsequent deny of
the rewritten card is rejected the same way — no second transfer, no second
notification. -/
theorem reviewTerminalIdempotence (e : ReviewEmbed) (transferOk fetchOk : Bool)
    (terr ferr approverId denierId : String) :
    (reviewAlreadyProcessed e = true →
      approveInteraction (some e) transferOk terr fetchOk approverId
          = alreadyProcessedOutcome ∧
        denyInteraction (some e) fetchOk ferr denierId
          = alreadyProcessedOutcome) ∧
    (reviewAlreadyProcessed e = false → validReviewFields e = true →
      (approveInteraction (some e) true terr true approverId).transfers = 1 ∧
      (approveInteraction (some e) true terr true approverId).editedCard
        = some (approvedCardOf e approverId) ∧
      denyInteraction (some (approvedCardOf e approverId)) fetchOk ferr denierId
        = alreadyProcessedOutcome) := by
  constructor
  · intro hterm
    constructor
    · simp [approveInteraction, hterm, alreadyProcessedOutcome]
    · simp [denyInteraction, hterm, alreadyProcessedOutcome]
  · intro hpend hvalid
    have hfields : (truthyO ((getReviewField e "👤 Requested by").bind matchMention) &&
        truthyO (getReviewField e "📁 File Name") &&
        truthyO (getReviewField e "🔗 Original File")) = true := hvalid
    have happrove : approveInteraction (some e) true terr true approverId
        = ⟨none, some "✅ Upload approved and completed successfully!",
            some (approvedCardOf e approverId), 1, 1, true⟩ := by
      simp only [approveInteraction, hpend, Bool.false_eq_true, if_false, hfields]
      simp
    have hterm2 : reviewAlreadyProcessed (approvedCardOf e approverId) = true := by
      unfold reviewAlreadyProcessed approvedCardOf
      have h1 : occursIn "APPROVED" "✅ Upload Request APPROVED" = true := by decide
      simp [h1]
    refine ⟨by rw [happrove], by rw [happrove], ?_⟩
    simp [denyInteraction, hterm2, alreadyProcessedOutcome]

/-- Witness for `reviewTerminalIdempotence`: a concrete pending card is
approved once, and the second (deny) attempt is rejected with no effects. -/
theorem reviewTerminalIdempotence_witness :
    (reviewAlreadyProcessed ⟨"📤 Upload Request for Approval",
        [("👤 Requested by", "<@77>"), ("📁 File Name", "art.png"),
         ("🔗 Original File", "https://cdn.x/a.png")]⟩ = false) ∧
      validReviewFields ⟨"📤 Upload Request for Approval",
        [("👤 Requested by", "<@77>"), ("📁 File Name", "art.png"),
         ("🔗 Original File", "https://cdn.x/a.png")]⟩ = true ∧
      denyInteraction (some (approvedCardOf ⟨"📤 Upload Request for Approval",
        [("👤 Requested by", "<@77>"), ("📁 File Name", "art.png"),
         ("🔗 Original File", "https://cdn.x/a.png")]⟩ "99")) true "" "99"
        = alreadyProcessedOutcome :=
  ⟨by decide, by decide,
    ((reviewTerminalIdempotence ⟨"📤 Upload Request for Approval",
        [("👤 Requested by", "<@77>"), ("📁 File Name", "art.png"),
         ("🔗 Original File", "https://cdn.x/a.png")]⟩ true true "" "" "9" "99").2
      (by decide) (by decide)).2.2⟩

/-! ### google-drive.js : folder cache data model -/

/-- A folder record as returned by the Drive `files.list` API
(`fields: files(id, name, parents)`). -/
structure DriveFolder where
  id : String
  name : String
  parents : Option (List String)
  deriving DecidableEq

/-- The cached folder object built by `buildFolderTree`
(`{id, name, parentId, children, path}`); children are kept as a
name → folder-id map, resolved through the flat cache (JS shares the same
objects between the tree and the flat map). -/
structure FolderObj where
  id : String
  name : String
  parentId : Option String
  path : String
  children : List (String × String)
  deriving DecidableEq

/-- The in-memory folder cache: the top-level tree (name → folder id) and the
flat id → object map. -/
structure CacheState where
  tree : List (String × String)
  flat : List (String × FolderObj)
  deriving DecidableEq

/-- JS falsiness of `folder.parentId` (`null`, `undefined` or the empty
string). -/
def parentFalsy : Option String → Bool
  | none => true
  | some s => s = ""

/-- The `getAllFolders` worker: breadth-first scan of parent-in-parents
child queries with a processed-parent set to avoid infinite loops.  The fuel is a
structural-termination device only: every step consumes one queue entry, and
at most `1 + Σ children` entries are ever enqueued, so the fuel supplied by
`getAllFolders` cannot run out. -/
def getAllFoldersAux (backend : List (String × List DriveFolder)) :
    Nat → List String → List String → List DriveFolder
  | 0, _, _ => []
  | fuel + 1, processed, queue =>
    match queue with
    | [] => []
    | p :: rest =>
      if p ∈ processed then getAllFoldersAux backend fuel processed rest
      else
        let cf := (lookupA backend p).getD []
        let enq := (cf.filter (fun f => !((p :: processed).contains f.id))).map (·.id)
        cf ++ getAllFoldersAux backend fuel (p :: processed) (rest ++ enq)

/-- google-drive.js `getAllFolders(rootId)`: all folders reachable from the
root by child queries, deduplicating visited parents. -/
def getAllFolders (backend : List (String × List DriveFolder))
    (rootId : String) : List DriveFolder :=
  getAllFoldersAux backend
    (1 + backend.foldl (fun a e => a + e.2.length) 0) [] [rootId]

/-- The `calculatePath(folderId, visited)` pass of `buildFolderTree`, with its
`folder.path` assignments made explicit as an ordered write log.  The fuel is
a structural-termination device only: each recursive step adds a distinct map
key to `visited`, so the recursion depth is bounded by the number of keys and
`buildFolderTree` supplies `fm.length + 1` fuel. -/
def calculatePath (fm : List (String × FolderObj)) (rootId : String) :
    Nat → String → List String → String × List (String × String)
  | 0, _, _ => ("", [])
  | fuel + 1, fid, visited =>
    if fid ∈ visited then ("", [])
    else
      match lookupA fm fid with
      | none => ("", [])
      | some f =>
        if f.parentId = some rootId ∨ parentFalsy f.parentId then
          (f.name, [(fid, f.name)])
        else
          match lookupA fm (f.parentId.getD "") with
          | none => (f.name, [(fid, f.name)])
          | some _ =>
            let r := calculatePath fm rootId fuel (f.parentId.getD "") (fid :: visited)
            let my := if r.1 = "" then f.name else r.1 ++ "/" ++ f.name
            (my, r.2 ++ [(fid, my)])

/-- First pass of `buildFolderTree`: the folder map (and flat cache) with
empty paths and children. -/
def initFolderMap (folders : List DriveFolder) : List (String × FolderObj) :=
  folders.foldl
    (fun m f => setKey m f.id ⟨f.id, f.name, f.parents.bind List.head?, "", []⟩) []

/-- Second pass of `buildFolderTree`: the ordered log of `folder.path`
assignments produced by running `calculatePath` over every folder. -/
def computePathWrites (fm : List (String × FolderObj)) (rootId : String)
    (folders : List DriveFolder) : List (String × String) :=
  folders.foldl
    (fun ws f => ws ++ (calculatePath fm rootId (fm.length + 1) f.id []).2) []

/-- The value left in `folder.path` after a sequence of assignments
(last write wins; unwritten folders keep the initial empty string). -/
def lastWrite (ws : List (String × String)) (fid : String) : String :=
  ((ws.reverse.find? (fun w => w.1 = fid)).map (·.2)).getD ""

/-- Apply the path-write log to the folder map. -/
def applyPathWrites (fm : List (String × FolderObj))
    (ws : List (String × String)) : List (String × FolderObj) :=
  fm.map (fun e => (e.1, { e.2 with path := lastWrite ws e.1 }))

/-- google-drive.js `buildFolderTree(folders, rootId)`: path computation
followed by tree assembly; returns the top-level tree (name → id) and the
final flat map.  Folders whose declared parent is outside the scoped set are
dropped from the tree. -/
def buildFolderTree (folders : List DriveFolder) (rootId : String) :
    List (String × String) × List (String × FolderObj) :=
  let fm0 := initFolderMap folders
  let fm1 := applyPathWrites fm0 (computePathWrites fm0 rootId folders)
  folders.foldl
    (fun acc f =>
      match f.parents with
      | none => (setKey acc.1 f.name f.id, acc.2)
      | some ps =>
        match ps.head? with
        | none => acc
        | some p0 =>
          if p0 = rootId then (setKey acc.1 f.name f.id, acc.2)
          else
            match lookupA acc.2 p0 with
            | none => acc
            | some pobj =>
              (acc.1, setKey acc.2 p0
                { pobj with children := setKey pobj.children f.name f.id }))
    ([], fm1)

/-- The path recorded in the flat cache for a folder id (empty if absent). -/
def pathOf (flat : List (String × FolderObj)) (fid : String) : String :=
  ((lookupA flat fid).map (·.path)).getD ""

/-! ### C4 : cycle safety of the rebuild -/

/-- A two-folder parent cycle: `A` has parent `B` and `B` has parent `A`. -/
def cycleFolders (ia na ib nb : String) : List DriveFolder :=
  [⟨ia, na, some [ib]⟩, ⟨ib, nb, some [ia]⟩]

/-- C4 counterexample: on the concrete cycle `A ↔ B` (neither parented by the
root), the rebuild terminates but does **not** give both folders top-level
paths: `A` ends with path `"A"` while `B` ends with path `"A/B"`. -/
theorem cyclePaths_counterexample :
    ¬(pathOf (buildFolderTree (cycleFolders "A" "A" "B" "B") "ROOT").2 "A" = "A"
      ∧ pathOf (buildFolderTree (cycleFolders "A" "A" "B" "B") "ROOT").2 "B" = "B") := by
  decide

/-- C4 (amended): for any two-folder parent cycle (distinct ids, neither
parented by the configured root, non-empty ids and names) the rebuild
terminates and assigns finite, non-recursive paths — but only the
first-listed folder gets a top-level path; the second gets the
partner-prefixed path `na/nb`. -/
theorem cyclePaths (ia na ib nb root : String)
    (hids : ia ≠ ib) (hia : ia ≠ root) (hib : ib ≠ root)
    (hiane : ia ≠ "") (hibne : ib ≠ "") (hna : na ≠ "") (hnb : nb ≠ "") :
    pathOf (buildFolderTree (cycleFolders ia na ib nb) root).2 ia = na ∧
      pathOf (buildFolderTree (cycleFolders ia na ib nb) root).2 ib
        = na ++ "/" ++ nb := by
  have hibia : ib ≠ ia := fun h => hids h.symm
  have hfm : initFolderMap (cycleFolders ia na ib nb)
      = [(ia, ⟨ia, na, some ib, "", []⟩), (ib, ⟨ib, nb, some ia, "", []⟩)] := by
    simp [initFolderMap, cycleFolders, setKey, hids]
  have hparenta : ¬((some ib : Option String) = some root ∨ parentFalsy (some ib) = true) := by
    simp [parentFalsy, hib, hibne]
  have hparentb : ¬((some ia : Option String) = some root ∨ parentFalsy (some ia) = true) := by
    simp [parentFalsy, hia, hiane]
  have hlookA : lookupA [(ia, (⟨ia, na, some ib, "", []⟩ : FolderObj)),
      (ib, ⟨ib, nb, some ia, "", []⟩)] ia = some ⟨ia, na, some ib, "", []⟩ := by
    simp [lookupA, List.find?]
  have hlookB : lookupA [(ia, (⟨ia, na, some ib, "", []⟩ : FolderObj)),
      (ib, ⟨ib, nb, some ia, "", []⟩)] ib = some ⟨ib, nb, some ia, "", []⟩ := by
    simp [lookupA, List.find?, hids]
  -- the four calculatePath runs
  have hcalcA : calculatePath [(ia, ⟨ia, na, some ib, "", []⟩),
      (ib, ⟨ib, nb, some ia, "", []⟩)] root 3 ia []
      = (nb ++ "/" ++ na, [(ib, nb), (ia, nb ++ "/" ++ na)]) := by
    simp [calculatePath, lookupA, List.find?, hids, hibia, parentFalsy,
      hia, hib, hiane, hibne, hna, hnb]
  have hcalcB : calculatePath [(ia, ⟨ia, na, some ib, "", []⟩),
      (ib, ⟨ib, nb, some ia, "", []⟩)] root 3 ib []
      = (na ++ "/" ++ nb, [(ia, na), (ib, na ++ "/" ++ nb)]) := by
    simp [calculatePath, lookupA, List.find?, hids, hibia, parentFalsy,
      hia, hib, hiane, hibne, hna, hnb]
  have hws : computePathWrites [(ia, ⟨ia, na, some ib, "", []⟩),
      (ib, ⟨ib, nb, some ia, "", []⟩)] root (cycleFolders ia na ib nb)
      = [(ib, nb), (ia, nb ++ "/" ++ na), (ia, na), (ib, na ++ "/" ++ nb)] := by
    simp [computePathWrites, cycleFolders, hcalcA, hcalcB]
  simp only [buildFolderTree, hfm, hws]
  simp only [applyPathWrites, lastWrite, List.map_cons, List.map_nil,
    List.reverse_cons, List.reverse_nil, List.nil_append, List.cons_append,
    List.find?]
  simp only [cycleFolders, List.foldl_cons, List.foldl_nil, List.head?]
  simp [setKey, lookupA, List.find?, hids, hibia, hia, hib, pathOf]


/-- Witness for `cyclePaths` on a concrete cycle. -/
theorem cyclePaths_witness :
    pathOf (buildFolderTree (cycleFolders "idA" "Art" "idB" "Refs") "ROOT").2 "idA"
        = "Art" ∧
      pathOf (buildFolderTree (cycleFolders "idA" "Art" "idB" "Refs") "ROOT").2 "idB"
        = "Art" ++ "/" ++ "Refs" :=
  cyclePaths "idA" "Art" "idB" "Refs" "ROOT" (by decide) (by decide) (by decide)
    (by decide) (by decide) (by decide) (by decide)

/-! ### google-drive.js : `buildFolderCache` (C6, C3) -/

/-- Metadata returned by `drive.files.get(fileId, fields: name, mimeType)`. -/
structure FileInfo where
  name : String
  mimeType : String
  deriving DecidableEq

/-- The external environment of a cache rebuild: configuration (config.json
`rootFolderId`, `DEFAULT_DRIVE_FOLDER_ID`), the `files.get` metadata endpoint
(`none` = unreadable), and the `files.list` children queries. -/
structure DriveEnv where
  rootFolderIdCfg : Option String
  defaultDriveFolderId : Option String
  getInfo : String → Option FileInfo
  childrenList : List (String × List DriveFolder)

/-- The chain `config.get(rootFolderId) || process.env.DEFAULT_DRIVE_FOLDER_ID || root`. -/
def resolveRootId (env : DriveEnv) : String :=
  falsyD env.rootFolderIdCfg (falsyD env.defaultDriveFolderId "root")

/-- The root-validation step of `buildFolderCache`: for a non-root root
id, `files.get` must succeed and report a folder mime type; either failure is
rethrown as `Invalid root folder: <id>`. -/
def validateRoot (env : DriveEnv) : Except String Unit :=
  let rootId := resolveRootId env
  if rootId = "root" then Except.ok ()
  else
    match env.getInfo rootId with
    | none => Except.error ("Invalid root folder: " ++ rootId)
    | some info =>
      if info.mimeType = "application/vnd.google-apps.folder" then Except.ok ()
      else Except.error ("Invalid root folder: " ++ rootId)

/-- The cache value right after
`this.folderCache.tree = {}; this.folderCache.flat.clear();`. -/
def clearedCacheState : CacheState := ⟨[], []⟩

/-- The cache produced by a completed rebuild. -/
def buildFolderCacheResult (env : DriveEnv) : CacheState :=
  let rootId := resolveRootId env
  let allFolders := getAllFolders env.childrenList rootId
  let tf := buildFolderTree allFolders rootId
  ⟨tf.1, tf.2⟩

/-- google-drive.js `buildFolderCache`: validate the root, then clear the
cache, scan all folders and rebuild; on validation failure the error is
thrown to the caller and the cache value is left as it was. -/
def buildFolderCache (env : DriveEnv) (cache : CacheState) :
    CacheState × Option String :=
  match validateRoot env with
  | Except.error e => (cache, some e)
  | Except.ok _ => (buildFolderCacheResult env, none)

/-- The cache states observable by concurrent readers during one
`buildFolderCache` run, one entry per region between `await` suspension
points: the previous cache (kept while the root metadata is fetched and on a
validation failure), then — because the code clears the cache **before**
fetching the folder list — the cleared cache throughout the `getAllFolders`
awaits, and finally the rebuilt cache (`buildFolderTree` and the tree
assignment run synchronously, so no intermediate flat-map population is
observable). -/
def buildFolderCacheStates (env : DriveEnv) (prev : CacheState) :
    List CacheState :=
  match validateRoot env with
  | Except.error _ => [prev]
  | Except.ok _ => [prev, clearedCacheState, buildFolderCacheResult env]

/-- C6: if the configured root cannot be read or is not a folder, the rebuild
aborts reporting `Invalid root folder: <id>` and the previous cache snapshot
is untouched. -/
theorem rebuildKeepsCacheOnBadRoot (env : DriveEnv) (cache : CacheState)
    (hroot : resolveRootId env ≠ "root")
    (hbad : env.getInfo (resolveRootId env) = none ∨
      ∃ info, env.getInfo (resolveRootId env) = some info ∧
        info.mimeType ≠ "application/vnd.google-apps.folder") :
    buildFolderCache env cache
      = (cache, some ("Invalid root folder: " ++ resolveRootId env)) := by
  have hval : validateRoot env
      = Except.error ("Invalid root folder: " ++ resolveRootId env) := by
    unfold validateRoot
    rcases hbad with h | ⟨info, h1, h2⟩
    · simp [hroot, h]
    · simp [hroot, h1, h2]
  unfold buildFolderCache
  rw [hval]

/-- Witness for `rebuildKeepsCacheOnBadRoot`: an unreadable root id leaves a
concrete one-folder cache untouched. -/
theorem rebuildKeepsCacheOnBadRoot_witness :
    buildFolderCache ⟨some "R", none, fun _ => none, []⟩
        ⟨[("a", "idA")], [("idA", ⟨"idA", "a", some "R", "a", []⟩)]⟩
      = (⟨[("a", "idA")], [("idA", ⟨"idA", "a", some "R", "a", []⟩)]⟩,
         some ("Invalid root folder: " ++ resolveRootId ⟨some "R", none, fun _ => none, []⟩)) :=
  rebuildKeepsCacheOnBadRoot ⟨some "R", none, fun _ => none, []⟩
    ⟨[("a", "idA")], [("idA", ⟨"idA", "a", some "R", "a", []⟩)]⟩
    (by decide) (Or.inl rfl)

/-! ### google-drive.js : `getFoldersForSelectMenu` (C9, C3) -/

/-- One Discord select-menu option as built by `getFoldersForSelectMenu`. -/
structure SelectOption where
  label : String
  value : String
  optionDescription : String
  emoji : String
  deriving DecidableEq

/-- Case-insensitive (lowercased) lexicographic string order — the model of
JS `a.localeCompare(b) ≤ 0` at primary (letter) strength for ASCII data. -/
def lowerLexLe : List Char → List Char → Bool
  | [], _ => true
  | _ :: _, [] => false
  | a :: as, b :: bs =>
    if a.toLower.toNat < b.toLower.toNat then true
    else if b.toLower.toNat < a.toLower.toNat then false
    else lowerLexLe as bs

/-- The comparator used to sort folder options
(`a.label.localeCompare(b.label)`), modelled case-insensitively. -/
def jsLocaleLe (a b : String) : Bool := lowerLexLe a.data b.data

/-- Stable insertion of an element into a sorted list. -/
def insertSorted {α : Type} (le : α → α → Bool) (x : α) : List α → List α
  | [] => [x]
  | y :: ys => if le x y then x :: y :: ys else y :: insertSorted le x ys

/-- Model of JS `Array.prototype.sort(cmp)` for a consistent comparator:
a stable sort by insertion. -/
def jsSortBy {α : Type} (le : α → α → Bool) (l : List α) : List α :=
  l.foldr (insertSorted le) []

theorem mem_insertSorted {α : Type} (le : α → α → Bool) (x : α) (l : List α)
    (a : α) : a ∈ insertSorted le x l ↔ a = x ∨ a ∈ l := by
  induction l with
  | nil => simp [insertSorted]
  | cons y ys ih =>
    simp only [insertSorted]
    split
    · simp
    · simp only [List.mem_cons, ih]
      tauto

theorem mem_jsSortBy {α : Type} (le : α → α → Bool) (l : List α) (a : α) :
    a ∈ jsSortBy le l ↔ a ∈ l := by
  induction l with
  | nil => simp [jsSortBy]
  | cons y ys ih =>
    simp only [jsSortBy, List.foldr_cons] at *
    rw [mem_insertSorted, ih, List.mem_cons]

theorem length_insertSorted {α : Type} (le : α → α → Bool) (x : α)
    (l : List α) : (insertSorted le x l).length = l.length + 1 := by
  induction l with
  | nil => simp [insertSorted]
  | cons y ys ih =>
    simp only [insertSorted]
    split
    · simp
    · simp [ih]

theorem length_jsSortBy {α : Type} (le : α → α → Bool) (l : List α) :
    (jsSortBy le l).length = l.length := by
  induction l with
  | nil => rfl
  | cons y ys ih =>
    simp only [jsSortBy, List.foldr_cons] at *
    rw [length_insertSorted, ih]
    rfl

theorem pairwise_insertSorted {α : Type} (le : α → α → Bool)
    (htot : ∀ a b, le a b = true ∨ le b a = true)
    (htrans : ∀ a b c, le a b = true → le b c = true → le a c = true)
    (x : α) (l : List α) (h : l.Pairwise (fun a b => le a b = true)) :
    (insertSorted le x l).Pairwise (fun a b => le a b = true) := by
  induction l with
  | nil => simp [insertSorted]
  | cons y ys ih =>
    rcases List.pairwise_cons.mp h with ⟨hy, hys⟩
    simp only [insertSorted]
    by_cases hxy : le x y = true
    · rw [if_pos hxy]
      refine List.pairwise_cons.mpr ⟨?_, h⟩
      intro z hz
      rcases List.mem_cons.mp hz with hz | hz
      · exact hz ▸ hxy
      · exact htrans x y z hxy (hy z hz)
    · rw [if_neg hxy]
      refine List.pairwise_cons.mpr ⟨?_, ih hys⟩
      intro z hz
      rcases (mem_insertSorted le x ys z).mp hz with hz | hz
      · rw [hz]
        rcases htot x y with hc | hc
        · exact absurd hc hxy
        · exact hc
      · exact hy z hz

theorem pairwise_jsSortBy {α : Type} (le : α → α → Bool)
    (htot : ∀ a b, le a b = true ∨ le b a = true)
    (htrans : ∀ a b c, le a b = true → le b c = true → le a c = true)
    (l : List α) : (jsSortBy le l).Pairwise (fun a b => le a b = true) := by
  induction l with
  | nil => simp [jsSortBy]
  | cons y ys ih =>
    simp only [jsSortBy, List.foldr_cons] at *
    exact pairwise_insertSorted le htot htrans y _ ih

theorem lowerLexLe_total (a : List Char) :
    ∀ b, lowerLexLe a b = true ∨ lowerLexLe b a = true := by
  induction a with
  | nil => intro b; left; rfl
  | cons x xs ih =>
    intro b
    cases b with
    | nil => right; rfl
    | cons y ys =>
      simp only [lowerLexLe]
      rcases Nat.lt_trichotomy x.toLower.toNat y.toLower.toNat with h | h | h
      · left; simp [h]
      · have h1 : ¬x.toLower.toNat < y.toLower.toNat := by omega
        have h2 : ¬y.toLower.toNat < x.toLower.toNat := by omega
        simp only [h1, h2, if_false]
        exact ih ys
      · right; simp [h]

theorem lowerLexLe_trans (a : List Char) :
    ∀ b c, lowerLexLe a b = true → lowerLexLe b c = true →
      lowerLexLe a c = true := by
  induction a with
  | nil => intro b c _ _; rfl
  | cons x xs ih =>
    intro b c hab hbc
    cases b with
    | nil => simp [lowerLexLe] at hab
    | cons y ys =>
      cases c with
      | nil => simp [lowerLexLe] at hbc
      | cons z zs =>
        simp only [lowerLexLe] at hab hbc ⊢
        rcases Nat.lt_trichotomy x.toLower.toNat y.toLower.toNat with h1 | h1 | h1
        · rcases Nat.lt_trichotomy y.toLower.toNat z.toLower.toNat with h2 | h2 | h2
          · simp [show x.toLower.toNat < z.toLower.toNat by omega]
          · simp [show x.toLower.toNat < z.toLower.toNat by omega]
          · rw [if_neg (by omega), if_pos h2] at hbc
            exact absurd hbc (by simp)
        · rcases Nat.lt_trichotomy y.toLower.toNat z.toLower.toNat with h2 | h2 | h2
          · simp [show x.toLower.toNat < z.toLower.toNat by omega]
          · rw [if_neg (by omega), if_neg (by omega)] at hab hbc
            rw [if_neg (by omega), if_neg (by omega)]
            exact ih ys zs hab hbc
          · rw [if_neg (by omega), if_pos h2] at hbc
            exact absurd hbc (by simp)
        · rw [if_neg (by omega), if_pos h1] at hab
          exact absurd hab (by simp)

theorem jsLocaleLe_total (a b : String) :
    jsLocaleLe a b = true ∨ jsLocaleLe b a = true :=
  lowerLexLe_total a.data b.data

theorem jsLocaleLe_trans (a b c : String) (h1 : jsLocaleLe a b = true)
    (h2 : jsLocaleLe b c = true) : jsLocaleLe a c = true :=
  lowerLexLe_trans a.data b.data c.data h1 h2

/-- The path-walking loop of `getFoldersForSelectMenu`: descend from a level
(name → folder id) into children resolved through the flat cache; `none` when
a segment is missing. -/
def navigateLevel (flat : List (String × FolderObj)) :
    List String → List (String × String) → Option (List (String × String))
  | [], lvl => some lvl
  | p :: ps, lvl =>
    match lookupA lvl p with
    | none => none
    | some cid =>
      navigateLevel flat ps (((lookupA flat cid).map (·.children)).getD [])

/-- One select-menu option (`label`/`value`/`description`/`emoji`). -/
def mkFolderOption (parentPath name : String) : SelectOption :=
  ⟨name, selectOptionValue parentPath name,
    "Upload to " ++ selectOptionValue parentPath name, "📁"⟩

/-- google-drive.js `getFoldersForSelectMenu(parentPath)`: walk the cached
tree to the requested level (empty path = top level, missing paths give
`[]`), render one option per child, sort by label and keep at most 25
(the Discord select-menu limit). -/
def getFoldersForSelectMenu (st : CacheState) (parentPath : String) :
    List SelectOption :=
  let parts := if parentPath = "" then [] else splitSlash parentPath
  match navigateLevel st.flat parts st.tree with
  | none => []
  | some lvl =>
    (jsSortBy (fun a b => jsLocaleLe a.label b.label)
      (lvl.map (fun e => mkFolderOption parentPath e.1))).take 25

/-- C9: the select-menu listing is capped at 25 entries, sorted
case-insensitively by label, empty when the path does not resolve in the
snapshot, draws its options exactly from the resolved level (the empty path
resolving to the top level), and is complete whenever the level has at most
25 children. -/
theorem listChildrenContract (st : CacheState) (parentPath : String) :
    (getFoldersForSelectMenu st parentPath).length ≤ 25 ∧
    (getFoldersForSelectMenu st parentPath).Pairwise
      (fun a b => jsLocaleLe a.label b.label = true) ∧
    (navigateLevel st.flat
        (if parentPath = "" then [] else splitSlash parentPath) st.tree = none →
      getFoldersForSelectMenu st parentPath = []) ∧
    (∀ lvl, navigateLevel st.flat
        (if parentPath = "" then [] else splitSlash parentPath) st.tree = some lvl →
      (∀ o ∈ getFoldersForSelectMenu st parentPath,
        ∃ e ∈ lvl, o = mkFolderOption parentPath e.1) ∧
      (lvl.length ≤ 25 → ∀ e ∈ lvl,
        mkFolderOption parentPath e.1 ∈ getFoldersForSelectMenu st parentPath)) ∧
    (parentPath = "" →
      navigateLevel st.flat
        (if parentPath = "" then [] else splitSlash parentPath) st.tree
        = some st.tree) := by
  refine ⟨?_, ?_, ?_, ?_, ?_⟩
  · simp only [getFoldersForSelectMenu]
    cases hn : navigateLevel st.flat
        (if parentPath = "" then [] else splitSlash parentPath) st.tree with
    | none => simp
    | some lvl =>
      simp only
      rw [List.length_take]
      omega
  · simp only [getFoldersForSelectMenu]
    cases hn : navigateLevel st.flat
        (if parentPath = "" then [] else splitSlash parentPath) st.tree with
    | none => simp
    | some lvl =>
      simp only
      refine List.Pairwise.sublist (List.take_sublist 25 _) ?_
      exact pairwise_jsSortBy (fun a b => jsLocaleLe a.label b.label)
        (fun (a b : SelectOption) => jsLocaleLe_total a.label b.label)
        (fun (a b c : SelectOption) => jsLocaleLe_trans a.label b.label c.label) _
  · intro hn
    simp only [getFoldersForSelectMenu]
    rw [hn]
  · intro lvl hn
    constructor
    · intro o ho
      simp only [getFoldersForSelectMenu] at ho
      rw [hn] at ho
      simp only at ho
      have := List.take_subset 25 _ ho
      rw [mem_jsSortBy] at this
      rcases List.mem_map.mp this with ⟨e, he, heq⟩
      exact ⟨e, he, heq.symm⟩
    · intro hlen e he
      simp only [getFoldersForSelectMenu]
      rw [hn]
      simp only
      have hlen2 : (jsSortBy (fun a b => jsLocaleLe a.label b.label)
          (lvl.map (fun e => mkFolderOption parentPath e.1))).length ≤ 25 := by
        rw [length_jsSortBy, List.length_map]
        exact hlen
      rw [List.take_of_length_le hlen2, mem_jsSortBy]
      exact List.mem_map.mpr ⟨e, he, rfl⟩
  · intro hp
    rw [if_pos hp]
    rfl

/-- Witness for `listChildrenContract`: a concrete two-folder cache, listed
at the top level and at an unresolvable path. -/
theorem listChildrenContract_witness :
    (navigateLevel [] (splitSlash "nope") [] = none ∧
      getFoldersForSelectMenu ⟨[], []⟩ "nope" = []) ∧
      (getFoldersForSelectMenu
          ⟨[("b", "id2"), ("a", "id1")],
           [("id1", ⟨"id1", "a", some "R", "a", []⟩),
            ("id2", ⟨"id2", "b", some "R", "b", []⟩)]⟩ "").Pairwise
        (fun a b => jsLocaleLe a.label b.label = true) := by
  constructor
  · constructor
    · decide
    · exact (listChildrenContract ⟨[], []⟩ "nope").2.2.1 (by decide)
  · exact (listChildrenContract
      ⟨[("b", "id2"), ("a", "id1")],
       [("id1", ⟨"id1", "a", some "R", "a", []⟩),
        ("id2", ⟨"id2", "b", some "R", "b", []⟩)]⟩ "").2.1

/-! ### C3 : cache visibility during a rebuild -/

/-- C3 counterexample: with a one-folder previous snapshot and a healthy
environment, a reader scheduled between the cache clear and the rebuild
completion (the middle entry of `buildFolderCacheStates`) does **not**
observe the previous snapshot — the listing it gets is empty, so the claim
that readers observe the previous snapshot unchanged until the atomic swap
fails on the code. -/
theorem rebuildVisibility_counterexample :
    ¬(∀ s ∈ (buildFolderCacheStates
        ⟨some "R", none,
          (fun s => if s = "R"
            then some ⟨"Root", "application/vnd.google-apps.folder"⟩ else none),
          [("R", [⟨"idA", "a", some ["R"]⟩])]⟩
        ⟨[("a", "idA")], [("idA", ⟨"idA", "a", some "R", "a", []⟩)]⟩).dropLast,
      getFoldersForSelectMenu s ""
        = getFoldersForSelectMenu
            ⟨[("a", "idA")], [("idA", ⟨"idA", "a", some "R", "a", []⟩)]⟩ "") := by
  decide

/-- C3 (amended): a successful rebuild exposes exactly three reader-visible
cache states — the previous snapshot (until the clear), then the **cleared,
empty** cache for the whole folder scan, and only at completion the rebuilt
snapshot; during the scan every listing request returns `[]` rather than the
previous snapshot's contents. -/
theorem rebuildVisibility (env : DriveEnv) (prev : CacheState)
    (hok : validateRoot env = Except.ok ()) :
    buildFolderCacheStates env prev
        = [prev, clearedCacheState, buildFolderCacheResult env] ∧
      (∀ p, getFoldersForSelectMenu clearedCacheState p = []) := by
  constructor
  · unfold buildFolderCacheStates
    rw [hok]
  · intro p
    simp only [getFoldersForSelectMenu, clearedCacheState]
    by_cases hp : p = ""
    · simp [hp, navigateLevel, jsSortBy]
    · rw [if_neg hp]
      cases hsp : splitSlash p with
      | nil =>
        have hne : splitSlash p ≠ [] := by
          unfold splitSlash
          intro h
          exact splitSlashAux_ne_nil p.data [] (List.map_eq_nil_iff.mp h)
        exact absurd hsp hne
      | cons x xs =>
        simp [navigateLevel, lookupA]

/-- Witness for `rebuildVisibility` at a concrete environment and previous
snapshot. -/
theorem rebuildVisibility_witness :
    buildFolderCacheStates
        ⟨some "Q", none,
          (fun s => if s = "Q"
            then some ⟨"Root", "application/vnd.google-apps.folder"⟩ else none),
          []⟩
        ⟨[("b", "idB")], [("idB", ⟨"idB", "b", some "Q", "b", []⟩)]⟩
      = [⟨[("b", "idB")], [("idB", ⟨"idB", "b", some "Q", "b", []⟩)]⟩,
         clearedCacheState,
         buildFolderCacheResult ⟨some "Q", none,
          (fun s => if s = "Q"
            then some ⟨"Root", "application/vnd.google-apps.folder"⟩ else none),
          []⟩] ∧
      (∀ p, getFoldersForSelectMenu clearedCacheState p = []) :=
  rebuildVisibility _ _ rfl

/-! ### C5 : path resolution (`getFolderIdByPath` / `getCachedFolderIdByPath`) -/

/-- A folder as stored on the Drive backend (only untrashed folders are
modelled; both the search query and folder creation are restricted to
untrashed folders). -/
structure BackendFolder where
  id : String
  name : String
  parentId : String
  deriving DecidableEq

/-- The Drive backend state: the folder set (in listing order) and a fresh-id
counter standing for the backend's id allocator. -/
structure Backend where
  folders : List BackendFolder
  nextId : Nat
  deriving DecidableEq

/-- The `files.list` search of one `getFolderIdByPath` step:
name-equals, parent-in-parents, folder mime type and untrashed. -/
def folderMatch (name parent : String) (f : BackendFolder) : Bool :=
  f.name = name && f.parentId = parent

/-- One loop iteration of `getFolderIdByPath`: search for the segment under
the current parent, take the first hit, otherwise create the folder
(returns the resolved id, the new backend state and whether a folder was
created). -/
def resolveSeg (b : Backend) (parent name : String) :
    String × Backend × Bool :=
  match b.folders.find? (folderMatch name parent) with
  | some f => (f.id, b, false)
  | none =>
    let newId := "created_" ++ natToStr b.nextId
    (newId, ⟨b.folders ++ [⟨newId, name, parent⟩], b.nextId + 1⟩, true)

/-- The segment loop of `getFolderIdByPath`, also counting creations. -/
def resolveSegs : List String → String → Backend → String × Backend × Nat
  | [], p, b => (p, b, 0)
  | s :: rest, p, b =>
    let r1 := resolveSeg b p s
    let r2 := resolveSegs rest r1.1 r1.2.1
    (r2.1, r2.2.1, (if r1.2.2 then 1 else 0) + r2.2.2)

/-- google-drive.js `getFolderIdByPath(folderPath, parentId)`: walk the
slash-separated segments from `parentId || DEFAULT_DRIVE_FOLDER_ID || root`,
searching before creating each segment. -/
def getFolderIdByPath (envDefault : Option String) (folderPath : String)
    (parentId : Option String) (b : Backend) : String × Backend × Nat :=
  if folderPath = "" ∨ folderPath = "/" then
    (falsyD parentId (falsyD envDefault "root"), b, 0)
  else
    resolveSegs ((splitSlash folderPath).filter (fun s => s ≠ ""))
      (falsyD parentId (falsyD envDefault "root")) b

/-- google-drive.js `getCachedFolderIdByPath(folderPath)`: root shortcut,
then the first flat-cache entry whose `path` matches, then the fallback to
the backend-walking `getFolderIdByPath`. -/
def getCachedFolderIdByPath (rootCfg envDefault : Option String)
    (flat : List (String × FolderObj)) (folderPath : String) (b : Backend) :
    String × Backend × Nat :=
  if folderPath = "" ∨ folderPath = "/" then
    (falsyD rootCfg (falsyD envDefault "root"), b, 0)
  else
    match flat.find? (fun e => e.2.path = folderPath) with
    | some e => (e.1, b, 0)
    | none => getFolderIdByPath envDefault folderPath none b

theorem find?_append_some {α : Type} (p : α → Bool) (l t : List α) (x : α)
    (h : l.find? p = some x) : (l ++ t).find? p = some x := by
  rw [List.find?_append, h]
  rfl

theorem resolveSeg_extends (b : Backend) (parent name : String) :
    ∃ adds, (resolveSeg b parent name).2.1.folders = b.folders ++ adds := by
  unfold resolveSeg
  cases h : b.folders.find? (folderMatch name parent) with
  | none => exact ⟨_, rfl⟩
  | some f => exact ⟨[], (List.append_nil _).symm⟩

theorem resolveSegs_extends (segs : List String) :
    ∀ p b, ∃ adds,
      (resolveSegs segs p b).2.1.folders = b.folders ++ adds := by
  induction segs with
  | nil => intro p b; exact ⟨[], (List.append_nil _).symm⟩
  | cons s rest ih =>
    intro p b
    obtain ⟨a1, h1⟩ := resolveSeg_extends b p s
    obtain ⟨a2, h2⟩ := ih (resolveSeg b p s).1 (resolveSeg b p s).2.1
    exact ⟨a1 ++ a2, by simp only [resolveSegs, h2, h1, List.append_assoc]⟩

theorem resolveSeg_found (b : Backend) (parent name : String) :
    (resolveSeg b parent name).2.1.folders.find? (folderMatch name parent)
      = some ⟨(resolveSeg b parent name).1, name, parent⟩ ∨
    ∃ f, b.folders.find? (folderMatch name parent) = some f ∧
      (resolveSeg b parent name).1 = f.id ∧
      (resolveSeg b parent name).2.1 = b := by
  unfold resolveSeg
  cases h : b.folders.find? (folderMatch name parent) with
  | some f => exact Or.inr ⟨f, rfl, rfl, rfl⟩
  | none =>
    left
    simp only
    rw [List.find?_append, h]
    simp [List.find?, folderMatch]

theorem resolveSeg_of_find (b : Backend) (parent name : String)
    (f : BackendFolder)
    (h : b.folders.find? (folderMatch name parent) = some f) :
    resolveSeg b parent name = (f.id, b, false) := by
  unfold resolveSeg
  rw [h]

/-- Re-resolving a segment list against the backend state produced by a first
resolution returns the same ids, leaves the backend unchanged, and creates
nothing. -/
theorem resolveSegs_idempotent (segs : List String) :
    ∀ p b, resolveSegs segs p ((resolveSegs segs p b).2.1)
      = ((resolveSegs segs p b).1, (resolveSegs segs p b).2.1, 0) := by
  induction segs with
  | nil => intro p b; rfl
  | cons s rest ih =>
    intro p b
    -- the first run, decomposed
    obtain ⟨arest, hrest⟩ := resolveSegs_extends rest (resolveSeg b p s).1
      (resolveSeg b p s).2.1
    have hseg2 : resolveSeg (resolveSegs rest (resolveSeg b p s).1
        (resolveSeg b p s).2.1).2.1 p s = ((resolveSeg b p s).1,
        (resolveSegs rest (resolveSeg b p s).1 (resolveSeg b p s).2.1).2.1,
        false) := by
      rcases resolveSeg_found b p s with hfound | ⟨f, hf, hid, hsame⟩
      · exact resolveSeg_of_find _ p s ⟨(resolveSeg b p s).1, s, p⟩
          (by rw [hrest]; exact find?_append_some _ _ _ _ hfound)
      · have hfind2 : List.find? (folderMatch s p)
            (resolveSegs rest (resolveSeg b p s).1
              (resolveSeg b p s).2.1).2.1.folders = some f := by
          rw [hrest, hsame]
          exact find?_append_some _ _ _ _ hf
        rw [resolveSeg_of_find _ p s f hfind2, hid]
    show resolveSegs (s :: rest) p (resolveSegs (s :: rest) p b).2.1 = _
    simp only [resolveSegs]
    simp only [hseg2]
    simp only [ih (resolveSeg b p s).1 (resolveSeg b p s).2.1]
    simp

/-- C5: resolving the same destination path twice in a row against an
unchanged cache snapshot yields the same backend folder id both times, the
second resolution leaves the backend untouched, and no folder is created on
the second call (whether the path is the root shortcut, a cache hit, or the
cache-miss fallback that walks and creates segments on the backend). -/
theorem resolvePathIdempotent (rootCfg envDefault : Option String)
    (flat : List (String × FolderObj)) (folderPath : String) (b : Backend) :
    getCachedFolderIdByPath rootCfg envDefault flat folderPath
        ((getCachedFolderIdByPath rootCfg envDefault flat folderPath b).2.1)
      = ((getCachedFolderIdByPath rootCfg envDefault flat folderPath b).1,
         (getCachedFolderIdByPath rootCfg envDefault flat folderPath b).2.1,
         0) := by
  by_cases hroot : folderPath = "" ∨ folderPath = "/"
  · simp [getCachedFolderIdByPath, hroot]
  · simp only [getCachedFolderIdByPath, if_neg hroot]
    cases hfind : flat.find? (fun e => e.2.path = folderPath) with
    | some e => simp
    | none =>
      simp only [getFolderIdByPath, if_neg hroot]
      exact resolveSegs_idempotent _ _ _

/-! ### C1 : the state-card codec
(`sendFolderSelectionMessage` / `extractRequestFromDMEmbed`) -/

/-- The JS regex `.` character class (anything but a line terminator). -/
def dotChar (c : Char) : Bool :=
  c ≠ '\n' && c ≠ '\r' && c ≠ '\u2028' && c ≠ '\u2029'

/-- Lazy matcher for the pattern tail `(.+?)\)`: close the third capture
group at the earliest `)` after at least one character. -/
def fileGroup3 (acc : List Char) : List Char → Option String
  | [] => none
  | c :: rest =>
    if c = ')' ∧ acc ≠ [] then some acc.reverse.asString
    else if dotChar c then fileGroup3 (c :: acc) rest
    else none

/-- Lazy matcher for the pattern tail `(.+?)\) \((.+?)\)`: close the second
capture group at the earliest `) (` from which the rest of the pattern
matches, otherwise put the character into the group (backtracking). -/
def fileGroup2 (acc : List Char) : List Char → Option (String × String)
  | [] => none
  | c :: rest =>
    match (if c = ')' ∧ acc ≠ [] then
        match rest with
        | ' ' :: '(' :: r2 =>
          (fileGroup3 [] r2).map (fun s3 => (acc.reverse.asString, s3))
        | _ => none
      else none) with
    | some r => some r
    | none => if dotChar c then fileGroup2 (c :: acc) rest else none

/-- Lazy matcher for the pattern tail `(.+?)\]\((.+?)\) \((.+?)\)`: close the
first capture group at the earliest `](` from which the rest matches. -/
def fileGroup1 (acc : List Char) : List Char → Option (String × String × String)
  | [] => none
  | c :: rest =>
    match (if c = ']' ∧ acc ≠ [] then
        match rest with
        | '(' :: r2 =>
          (fileGroup2 [] r2).map (fun us => (acc.reverse.asString, us.1, us.2))
        | _ => none
      else none) with
    | some r => some r
    | none => if dotChar c then fileGroup1 (c :: acc) rest else none

/-- The literal head of the summary-line pattern `\*\*File:\*\* \[`. -/
def fileLit : String := "**File:** ["

/-- Attempt the summary-line pattern at the current position. -/
def matchFileAt (cs : List Char) : Option (String × String × String) :=
  match dropLiteral fileLit.data cs with
  | some rest => fileGroup1 [] rest
  | none => none

/-- The regex `/\*\*File:\*\* \[(.+?)\]\((.+?)\) \((.+?)\)/`: leftmost match
with lazy capture groups. -/
def findFileMatch : List Char → Option (String × String × String)
  | [] => none
  | c :: rest =>
    match matchFileAt (c :: rest) with
    | some r => some r
    | none => findFileMatch rest

/-- The request record rendered on the state card (the fields of the source
`request` object that `sendFolderSelectionMessage` reads). -/
structure UploadRequest where
  userId : String
  attachmentUrl : String
  originalFileName : String
  fileSize : Nat
  contentType : String
  currentPath : String
  fileName : String
  description : String
  deriving DecidableEq

/-- A rendered Discord embed: title, description line and labelled fields. -/
structure DMEmbed where
  title : String
  embedDescription : String
  fields : List (String × String)
  deriving DecidableEq

/-- helpers.js `getFieldValue(embed, fieldName)`. -/
def getFieldValue (e : DMEmbed) (name : String) : Option String :=
  (e.fields.find? (fun f => f.1 = name)).map (·.2)

/-- The state card built by `sendFolderSelectionMessage`: fixed title,
`**File:** [name](url) (size)` summary, and the three labelled fields with
the `*(Root)*` / `*(none)*` sentinels for empty values (plus the extra
informational field when no subfolders are offered). -/
def folderSelectionEmbed (r : UploadRequest) (folders : List SelectOption) :
    DMEmbed :=
  ⟨"📤 Upload to Google Drive",
    "**File:** [" ++ r.originalFileName ++ "](" ++ r.attachmentUrl ++ ") (" ++
      formatFileSize r.fileSize ++ ")",
    [("📁 Current Location", if r.currentPath = "" then "*(Root)*" else r.currentPath),
     ("📝 File Name", r.fileName),
     ("📋 Description", if r.description = "" then "*(none)*" else r.description)]
    ++ (if folders = [] ∧ r.currentPath = "" then
          [("⚠️ No Folders",
            "No subfolders found. You can upload to the root location.")]
        else if folders = [] then
          [("📁 End of Path",
            "No subfolders here. Choose \"Upload Here\" to upload to this location.")]
        else [])⟩

/-- The record produced by `extractRequestFromDMEmbed` (`fileName` is the raw
possibly-undefined field value; `fileSize` is a JS number). -/
structure ExtractedRequest where
  attachmentUrl : String
  fileSize : Option ℚ
  userId : String
  originalFileName : String
  fileName : Option String
  description : String
  currentPath : String
  requestId : Option String
  deriving DecidableEq

/-- uploadWorkflow.js `extractRequestFromDMEmbed(embed, interaction)`:
reject non-matching titles, read the labelled fields back (undoing the
sentinels), parse the summary line with the `**File:** [..](..) (..)` regex,
and rebuild the request. -/
def extractRequestFromDMEmbed (embed : Option DMEmbed) (userId : String) :
    Option ExtractedRequest :=
  match embed with
  | none => none
  | some e =>
    if e.title = "📤 Upload to Google Drive" then
      let currentPath := jsOrEmptyS ((getFieldValue e "📁 Current Location").map
        (fun v => replaceFirst v "*(Root)*" ""))
      let fileName := getFieldValue e "📝 File Name"
      let description := jsOrEmptyS ((getFieldValue e "📋 Description").map
        (fun v => replaceFirst v "*(none)*" ""))
      match findFileMatch e.embedDescription.data with
      | none => none
      | some m =>
        if m.2.1 = "" ∨ m.1 = "" then none
        else some ⟨m.2.1, parseFileSize m.2.2, userId, m.1, fileName,
          description, currentPath, none⟩
    else none

/-- Characters allowed in the second (URL) and third (size) capture groups:
matched by `.` and never closing a `)`-delimited group early. -/
def sizeChar (c : Char) : Bool := dotChar c && c ≠ ')'

/-- Characters allowed in the first (filename) capture group: matched by `.`
and never starting the `](` separator. -/
def nameChar (c : Char) : Bool := dotChar c && c ≠ ']'

theorem sizeChar_digitToChar (d : Nat) : sizeChar (digitToChar d) = true := by
  rcases d with _ | _ | _ | _ | _ | _ | _ | _ | _ | d <;> rfl

theorem natToStrAux_chars (fuel : Nat) :
    ∀ n acc, (∀ c ∈ acc, sizeChar c = true) →
      ∀ c ∈ natToStrAux fuel n acc, sizeChar c = true := by
  induction fuel with
  | zero => intro n acc hacc c hc; exact hacc c hc
  | succ fuel ih =>
    intro n acc hacc c hc
    simp only [natToStrAux] at hc
    split at hc
    · rcases List.mem_cons.mp hc with h | h
      · exact h ▸ sizeChar_digitToChar n
      · exact hacc c h
    · refine ih (n / 10) _ ?_ c hc
      intro c' hc'
      rcases List.mem_cons.mp hc' with h | h
      · exact h ▸ sizeChar_digitToChar (n % 10)
      · exact hacc c' h

theorem natToStr_chars (n : Nat) : ∀ c ∈ (natToStr n).data, sizeChar c = true := by
  intro c hc
  exact natToStrAux_chars (n + 1) n [] (by simp) c hc

theorem mem_data_append3 (a b c' : String) (ch : Char)
    (h : ch ∈ (a ++ b ++ c').data) : ch ∈ a.data ∨ ch ∈ b.data ∨ ch ∈ c'.data := by
  simp only [String.data_append, List.mem_append] at h
  tauto

theorem renderFixed2_chars (num den : Nat) :
    ∀ c ∈ (renderFixed2 num den).data, sizeChar c = true := by
  intro c hc
  simp only [renderFixed2] at hc
  split at hc
  · exact natToStr_chars _ c hc
  · split at hc
    · rcases mem_data_append3 _ _ _ _ hc with h | h | h
      · exact natToStr_chars _ c h
      · have hce : c = '.' := by simpa using h
        rw [hce]; rfl
      · exact natToStr_chars _ c h
    · split at hc
      · rcases mem_data_append3 _ _ _ _ hc with h | h | h
        · exact natToStr_chars _ c h
        · have hce : c = '.' ∨ c = '0' := by simpa using h
          rcases hce with hce | hce <;> (rw [hce]; rfl)
        · exact natToStr_chars _ c h
      · rcases mem_data_append3 _ _ _ _ hc with h | h | h
        · exact natToStr_chars _ c h
        · have hce : c = '.' := by simpa using h
          rw [hce]; rfl
        · exact natToStr_chars _ c h

theorem unit_chars (i : Nat) :
    ∀ c ∈ ((["Bytes", "KB", "MB", "GB"].getD i "undefined") : String).data,
      sizeChar c = true := by
  match i with
  | 0 => decide
  | 1 => decide
  | 2 => decide
  | 3 => decide
  | (n + 4) =>
    have h : (["Bytes", "KB", "MB", "GB"] : List String).getD (n + 4) "undefined"
        = "undefined" := by
      apply List.getD_eq_default
      simp
    rw [h]
    decide

theorem formatFileSize_chars (n : Nat) :
    ∀ c ∈ (formatFileSize n).data, sizeChar c = true := by
  intro c hc
  simp only [formatFileSize] at hc
  split at hc
  · have hall : ∀ x ∈ "0 Bytes".data, sizeChar x = true := by decide
    exact hall c hc
  · rcases mem_data_append3 _ _ _ _ hc with h | h | h
    · exact renderFixed2_chars _ _ c h
    · have hce : c = ' ' := by simpa using h
      rw [hce]; rfl
    · exact unit_chars _ c h

theorem formatFileSize_ne_nil (n : Nat) : (formatFileSize n).data ≠ [] := by
  unfold formatFileSize
  split
  · decide
  · simp [String.data_append]

theorem asString_data (l : List Char) : (l.asString).data = l := rfl

theorem data_asString (s : String) : s.data.asString = s := by cases s; rfl

theorem data_ne_nil (s : String) (h : s ≠ "") : s.data ≠ [] := by
  intro hd
  apply h
  cases s with
  | mk l => cases hd; rfl

theorem replaceFirstAux_of_not_occurs (pat repl : List Char) :
    ∀ cs, occursInL pat cs = false → replaceFirstAux pat repl cs = cs := by
  intro cs
  induction cs with
  | nil => intro _; rfl
  | cons c rest ih =>
    intro h
    simp only [occursInL, Bool.or_eq_false_iff] at h
    simp only [replaceFirstAux]
    cases hd : dropLiteral pat (c :: rest) with
    | some r => rw [hd] at h; simp at h
    | none => rw [ih h.2]

theorem replaceFirst_of_not_occurs (s pat repl : String)
    (h : occursIn pat s = false) : replaceFirst s pat repl = s := by
  have hpat : pat.data ≠ [] := by
    intro hp
    unfold occursIn at h
    rw [hp] at h
    cases hs : s.data with
    | nil => rw [hs] at h; simp [occursInL] at h
    | cons c cs => rw [hs] at h; simp [occursInL, dropLiteral] at h
  unfold replaceFirst
  rw [if_neg hpat, replaceFirstAux_of_not_occurs pat.data repl.data s.data h,
    data_asString]

theorem dropLiteral_self (l : List Char) :
    ∀ r, dropLiteral l (l ++ r) = some r := by
  induction l with
  | nil => intro r; rfl
  | cons c cs ih => intro r; simp [dropLiteral, ih]

theorem fileGroup3_round (s : List Char) :
    ∀ acc tail, (acc ≠ [] ∨ s ≠ []) → (∀ c ∈ s, sizeChar c = true) →
      fileGroup3 acc (s ++ ')' :: tail) = some (acc.reverse ++ s).asString := by
  induction s with
  | nil =>
    intro acc tail hne _
    have hacc : acc ≠ [] := by
      rcases hne with h | h
      · exact h
      · exact absurd rfl h
    simp [fileGroup3, hacc]
  | cons c cs ih =>
    intro acc tail hne hs
    have hc := hs c (List.mem_cons_self c cs)
    simp only [sizeChar, Bool.and_eq_true, decide_eq_true_eq] at hc
    have hrec := ih (c :: acc) tail (Or.inl (by simp))
      (fun c' h' => hs c' (List.mem_cons_of_mem _ h'))
    simp only [List.cons_append]
    simp [fileGroup3, hc.1, hc.2, hrec]

theorem fileGroup2_round (u : List Char) (s tail : List Char)
    (hs : s ≠ []) (hsc : ∀ c ∈ s, sizeChar c = true) :
    ∀ acc, (acc ≠ [] ∨ u ≠ []) → (∀ c ∈ u, sizeChar c = true) →
      fileGroup2 acc (u ++ ')' :: ' ' :: '(' :: (s ++ ')' :: tail))
        = some ((acc.reverse ++ u).asString, s.asString) := by
  induction u with
  | nil =>
    intro acc hne _
    have hacc : acc ≠ [] := by
      rcases hne with h | h
      · exact h
      · exact absurd rfl h
    have h3 := fileGroup3_round s [] tail (Or.inr hs) hsc
    simp [fileGroup2, hacc, h3]
  | cons c cs ih =>
    intro acc hne hu
    have hc := hu c (List.mem_cons_self c cs)
    simp only [sizeChar, Bool.and_eq_true, decide_eq_true_eq] at hc
    have hrec := ih (c :: acc) (Or.inl (by simp))
      (fun c' h' => hu c' (List.mem_cons_of_mem _ h'))
    simp only [List.cons_append]
    simp [fileGroup2, hc.1, hc.2, hrec]

theorem fileGroup1_round (nm : List Char) (u s tail : List Char)
    (hu : u ≠ []) (huc : ∀ c ∈ u, sizeChar c = true)
    (hs : s ≠ []) (hsc : ∀ c ∈ s, sizeChar c = true) :
    ∀ acc, (acc ≠ [] ∨ nm ≠ []) → (∀ c ∈ nm, nameChar c = true) →
      fileGroup1 acc (nm ++ ']' :: '(' :: (u ++ ')' :: ' ' :: '(' :: (s ++ ')' :: tail)))
        = some ((acc.reverse ++ nm).asString, u.asString, s.asString) := by
  induction nm with
  | nil =>
    intro acc hne _
    have hacc : acc ≠ [] := by
      rcases hne with h | h
      · exact h
      · exact absurd rfl h
    have h2 := fileGroup2_round u s tail hs hsc [] (Or.inr hu) huc
    simp [fileGroup1, hacc, h2]
  | cons c cs ih =>
    intro acc hne hnm
    have hc := hnm c (List.mem_cons_self c cs)
    simp only [nameChar, Bool.and_eq_true, decide_eq_true_eq] at hc
    have hrec := ih (c :: acc) (Or.inl (by simp))
      (fun c' h' => hnm c' (List.mem_cons_of_mem _ h'))
    simp only [List.cons_append]
    simp [fileGroup1, hc.1, hc.2, hrec]

theorem findFileMatch_head (c : Char) (rest : List Char)
    (r : String × String × String) (h : matchFileAt (c :: rest) = some r) :
    findFileMatch (c :: rest) = some r := by
  simp [findFileMatch, h]

theorem summaryLine_data (r : UploadRequest) :
    ("**File:** [" ++ r.originalFileName ++ "](" ++ r.attachmentUrl ++ ") (" ++
        formatFileSize r.fileSize ++ ")").data
      = fileLit.data ++ (r.originalFileName.data ++ ']' :: '(' ::
          (r.attachmentUrl.data ++ ')' :: ' ' :: '(' ::
            ((formatFileSize r.fileSize).data ++ ')' :: []))) := by
  simp only [String.data_append, fileLit]
  simp

theorem findFileMatch_summary (r : UploadRequest)
    (hofn : r.originalFileName ≠ "")
    (hofnChars : ∀ c ∈ r.originalFileName.data, nameChar c = true)
    (hurl : r.attachmentUrl ≠ "")
    (hurlChars : ∀ c ∈ r.attachmentUrl.data, sizeChar c = true) :
    findFileMatch ("**File:** [" ++ r.originalFileName ++ "](" ++
        r.attachmentUrl ++ ") (" ++ formatFileSize r.fileSize ++ ")").data
      = some (r.originalFileName, r.attachmentUrl, formatFileSize r.fileSize) := by
  rw [summaryLine_data]
  have hg1 := fileGroup1_round r.originalFileName.data r.attachmentUrl.data
    (formatFileSize r.fileSize).data [] (data_ne_nil _ hurl) hurlChars
    (formatFileSize_ne_nil r.fileSize) (formatFileSize_chars r.fileSize) []
    (Or.inr (data_ne_nil _ hofn)) hofnChars
  have hmAt : matchFileAt (fileLit.data ++ (r.originalFileName.data ++ ']' :: '(' ::
      (r.attachmentUrl.data ++ ')' :: ' ' :: '(' ::
        ((formatFileSize r.fileSize).data ++ ')' :: []))))
      = some (r.originalFileName, r.attachmentUrl, formatFileSize r.fileSize) := by
    unfold matchFileAt
    rw [dropLiteral_self]
    simp [hg1, data_asString]
  have hcons : fileLit.data ++ (r.originalFileName.data ++ ']' :: '(' ::
      (r.attachmentUrl.data ++ ')' :: ' ' :: '(' ::
        ((formatFileSize r.fileSize).data ++ ')' :: [])))
      = '*' :: ("*File:** [".data ++ (r.originalFileName.data ++ ']' :: '(' ::
          (r.attachmentUrl.data ++ ')' :: ' ' :: '(' ::
            ((formatFileSize r.fileSize).data ++ ')' :: [])))) := rfl
  rw [hcons] at hmAt ⊢
  exact findFileMatch_head _ _ _ hmAt

/-- C1 (amended): decoding the state card rendered for a valid request
recovers the destination path (with the `*(Root)*` sentinel for the root),
file name, description (with the `*(none)*` sentinel), original filename and
attachment URL exactly, while the byte size is recovered only up to the
two-decimal rounding of the human-readable rendering: the decoded size is
the exact value produced by re-parsing the `formatFileSize` output through
the {Bytes, KB, MB, GB} factor-1024 unit table, not in general the original
integer.  Valid field values: non-empty original filename free of line
terminators and `]`, non-empty URL free of line terminators and `)`, and
path/description not containing their own sentinel text. -/
theorem uploadCardRoundTrip (r : UploadRequest) (folders : List SelectOption)
    (uid : String)
    (hofn : r.originalFileName ≠ "")
    (hofnChars : ∀ c ∈ r.originalFileName.data, nameChar c = true)
    (hurl : r.attachmentUrl ≠ "")
    (hurlChars : ∀ c ∈ r.attachmentUrl.data, sizeChar c = true)
    (hpath : occursIn "*(Root)*" r.currentPath = false)
    (hdesc : occursIn "*(none)*" r.description = false) :
    extractRequestFromDMEmbed (some (folderSelectionEmbed r folders)) uid
      = some ⟨r.attachmentUrl, parseFileSize (formatFileSize r.fileSize), uid,
          r.originalFileName, some r.fileName, r.description, r.currentPath,
          none⟩ := by
  have hloc : getFieldValue (folderSelectionEmbed r folders) "📁 Current Location"
      = some (if r.currentPath = "" then "*(Root)*" else r.currentPath) := by
    simp [folderSelectionEmbed, getFieldValue, List.find?]
  have hnamef : getFieldValue (folderSelectionEmbed r folders) "📝 File Name"
      = some r.fileName := by
    simp [folderSelectionEmbed, getFieldValue, List.find?]
  have hdescf : getFieldValue (folderSelectionEmbed r folders) "📋 Description"
      = some (if r.description = "" then "*(none)*" else r.description) := by
    simp [folderSelectionEmbed, getFieldValue, List.find?]
  have hcp : jsOrEmptyS ((some (if r.currentPath = "" then "*(Root)*"
      else r.currentPath)).map (fun v => replaceFirst v "*(Root)*" ""))
      = r.currentPath := by
    by_cases h : r.currentPath = ""
    · rw [h]
      have hrepl : replaceFirst "*(Root)*" "*(Root)*" "" = "" := by decide
      simp [hrepl, jsOrEmptyS]
    · rw [if_neg h]
      show jsOrEmptyS (some (replaceFirst r.currentPath "*(Root)*" ""))
        = r.currentPath
      rw [replaceFirst_of_not_occurs _ _ _ hpath]
      rfl
  have hdp : jsOrEmptyS ((some (if r.description = "" then "*(none)*"
      else r.description)).map (fun v => replaceFirst v "*(none)*" ""))
      = r.description := by
    by_cases h : r.description = ""
    · rw [h]
      have hrepl : replaceFirst "*(none)*" "*(none)*" "" = "" := by decide
      simp [hrepl, jsOrEmptyS]
    · rw [if_neg h]
      show jsOrEmptyS (some (replaceFirst r.description "*(none)*" ""))
        = r.description
      rw [replaceFirst_of_not_occurs _ _ _ hdesc]
      rfl
  have hmatch := findFileMatch_summary r hofn hofnChars hurl hurlChars
  simp only [extractRequestFromDMEmbed]
  simp only [folderSelectionEmbed] at hloc hnamef hdescf ⊢
  simp only [if_true]
  simp only [hloc, hnamef, hdescf, hmatch]
  rw [if_neg (by simp [hurl, hofn])]
  simp only [hcp, hdp]

/-- Witness for `uploadCardRoundTrip` on a concrete request (root path, empty
description, a 2.29 MB image). -/
theorem uploadCardRoundTrip_witness :
    (∀ c ∈ ("art.png" : String).data, nameChar c = true) ∧
      extractRequestFromDMEmbed (some (folderSelectionEmbed
          ⟨"42", "https://cdn.example/art.png", "art.png", 2400000,
            "image/png", "", "art.png", ""⟩ [])) "42"
        = some ⟨"https://cdn.example/art.png",
            parseFileSize (formatFileSize 2400000), "42", "art.png",
            some "art.png", "", "", none⟩ :=
  ⟨by decide,
    uploadCardRoundTrip
      ⟨"42", "https://cdn.example/art.png", "art.png", 2400000, "image/png",
        "", "art.png", ""⟩ [] "42"
      (by decide) (by decide) (by decide) (by decide) (by decide) (by decide)⟩

/-- C1 counterexample: the byte size is NOT recovered to the same integer by
the codec round-trip.  A 2,400,000-byte attachment is rendered by
`formatFileSize` as the two-decimal string 2.29 MB, which `parseFileSize`
turns back into 2,401,239.04 — so the decoded request differs from the
original in the size field. -/
theorem uploadCardRoundTrip_counterexample :
    (extractRequestFromDMEmbed (some (folderSelectionEmbed
          ⟨"42", "https://cdn.example/art.png", "art.png", 2400000,
            "image/png", "", "art.png", ""⟩ [])) "42").map
        ExtractedRequest.fileSize ≠ some (some (2400000 : ℚ)) ∧
      (extractRequestFromDMEmbed (some (folderSelectionEmbed
          ⟨"42", "https://cdn.example/art.png", "art.png", 2400000,
            "image/png", "", "art.png", ""⟩ [])) "42").map
        ExtractedRequest.fileSize = some (some (2401239.04 : ℚ)) := by
  have h : (extractRequestFromDMEmbed (some (folderSelectionEmbed
        ⟨"42", "https://cdn.example/art.png", "art.png", 2400000,
          "image/png", "", "art.png", ""⟩ [])) "42").map
      ExtractedRequest.fileSize
      = some (some (((digitsVal ['2'] : ℚ) +
          (digitsVal ['2', '9'] : ℚ) / (10 ^ (2 : ℕ) : ℚ)) * (1024 * 1024))) := rfl
  have hd1 : digitsVal ['2'] = 2 := by decide
  have hd2 : digitsVal ['2', '9'] = 29 := by decide
  rw [h, hd1, hd2]
  constructor
  · simp only [ne_eq, Option.some.injEq]
    norm_num
  · simp only [Option.some.injEq]
    norm_num
